import Mathlib

/-!
Verification of the stream synthesis and validation core of the
SoundMonitoringSystem repository (a smoothed random-walk data generator,
a publisher loop with simulated packet loss and corruption, and a
subscriber-side stream health monitor).

The embedding models real numbers with `ℚ`.  Each random draw of the
Python source (`random.uniform(-a, a)`, `random.random()`) becomes an
explicit parameter of the embedded function, constrained where needed by
the range that the corresponding Python call guarantees.
-/

namespace SoundMonitoring

/-- Python `round(x, 2)` modelled over `ℚ`: round to two decimal places.
(`Mathlib.round` rounds half away from the floor; the development never
relies on tie behaviour.) -/
def round2 (x : ℚ) : ℚ := (round (x * 100) : ℚ) / 100

/-- Configuration of `DataGenerator.__init__` (group_5_data_generator.py,
lines 16-27): `base_value`, `variance`, `trend_strength`. -/
structure GenConfig where
  base_value : ℚ
  variance : ℚ
  trend_strength : ℚ
deriving DecidableEq, Repr

/-- Mutable state of a `DataGenerator` instance: `current_trend` and
`last_value` (group_5_data_generator.py, lines 26-27). -/
structure GenState where
  current_trend : ℚ
  last_value : ℚ
deriving DecidableEq, Repr

/-- Initial generator state: `current_trend = 0`, `last_value = base_value`
(group_5_data_generator.py, lines 26-27). -/
def initState (c : GenConfig) : GenState := ⟨0, c.base_value⟩

/-- One call of `DataGenerator.generate_value`
(group_5_data_generator.py, lines 29-50), with the two uniform draws made
explicit: `d` is the draw of `random.uniform(-trend_strength,
trend_strength)` and `r` the draw of `random.uniform(-variance, variance)`.
Returns the updated state and the rounded return value. -/
def generate_value (c : GenConfig) (s : GenState) (d r : ℚ) : GenState × ℚ :=
  let trend := max (min (s.current_trend + d) 1) (-1)
  let new_value := c.base_value + r + trend * c.variance
  let smoothed := 7/10 * s.last_value + 3/10 * new_value
  (⟨trend, smoothed⟩, round2 smoothed)

/-- The range guarantee of the two `random.uniform` calls inside
`generate_value`: `random.uniform(-a, a)` always returns a value of
magnitude at most `|a|`. -/
def ValidDraw (c : GenConfig) (d r : ℚ) : Prop :=
  |d| ≤ |c.trend_strength| ∧ |r| ≤ |c.variance|

instance (c : GenConfig) (d r : ℚ) : Decidable (ValidDraw c d r) := by
  unfold ValidDraw; infer_instance

/-- Iterate `generate_value` over a list of draw pairs, returning the final
state (the source calls `generate_value` once per publish cycle). -/
def genSteps (c : GenConfig) (s : GenState) (draws : List (ℚ × ℚ)) : GenState :=
  draws.foldl (fun st p => (generate_value c st p.1 p.2).1) s

theorem genSteps_nil (c : GenConfig) (s : GenState) : genSteps c s [] = s := rfl

theorem genSteps_cons (c : GenConfig) (s : GenState) (p : ℚ × ℚ) (ps : List (ℚ × ℚ)) :
    genSteps c s (p :: ps) = genSteps c (generate_value c s p.1 p.2).1 ps := rfl

/-- The clamp in `generate_value` keeps the trend in `[-1, 1]`
unconditionally. -/
theorem trend_step_mem (c : GenConfig) (s : GenState) (d r : ℚ) :
    (generate_value c s d r).1.current_trend ∈ Set.Icc (-1 : ℚ) 1 := by
  simp only [generate_value, Set.mem_Icc]
  constructor
  · exact le_max_right _ _
  · exact max_le (min_le_right _ _) (by norm_num)

/-- Rounding to two decimals moves a rational by at most `1/200 = 0.005`. -/
theorem abs_round2_sub (x : ℚ) : |round2 x - x| ≤ 1/200 := by
  have h : |(round (x * 100) : ℚ) - x * 100| ≤ 1/2 := by
    rw [abs_sub_comm]; exact abs_sub_round (x * 100)
  have h2 : round2 x - x = ((round (x * 100) : ℚ) - x * 100) / 100 := by
    unfold round2; ring
  rw [h2, abs_div]
  rw [abs_of_pos (by norm_num : (0:ℚ) < 100)]
  linarith [h]

/-- The raw (pre-smoothing) value of a step with valid draws lies within
`base_value ± 2 * |variance|`. -/
theorem raw_bound (c : GenConfig) (s : GenState) (d r : ℚ)
    (hd : ValidDraw c d r) :
    |c.base_value + r + (max (min (s.current_trend + d) 1) (-1)) * c.variance
      - c.base_value| ≤ 2 * |c.variance| := by
  have hr : |r| ≤ |c.variance| := hd.2
  have ht : |max (min (s.current_trend + d) 1) (-1)| ≤ 1 := by
    rw [abs_le]
    constructor
    · exact le_max_right _ _
    · exact max_le (min_le_right _ _) (by norm_num)
  have htv : |(max (min (s.current_trend + d) 1) (-1)) * c.variance| ≤ |c.variance| := by
    rw [abs_mul]
    calc |max (min (s.current_trend + d) 1) (-1)| * |c.variance|
        ≤ 1 * |c.variance| := by
          exact mul_le_mul_of_nonneg_right ht (abs_nonneg _)
      _ = |c.variance| := one_mul _
  have : c.base_value + r + (max (min (s.current_trend + d) 1) (-1)) * c.variance
      - c.base_value = r + (max (min (s.current_trend + d) 1) (-1)) * c.variance := by ring
  rw [this]
  calc |r + (max (min (s.current_trend + d) 1) (-1)) * c.variance|
      ≤ |r| + |(max (min (s.current_trend + d) 1) (-1)) * c.variance| := abs_add _ _
    _ ≤ |c.variance| + |c.variance| := add_le_add hr htv
    _ = 2 * |c.variance| := by ring

/-- A single valid step preserves `|last_value - base_value| ≤ 2 * |variance|`:
the smoothed value is a convex 70/30 blend of two points of the interval. -/
theorem last_value_step (c : GenConfig) (s : GenState) (d r : ℚ)
    (hd : ValidDraw c d r)
    (hs : |s.last_value - c.base_value| ≤ 2 * |c.variance|) :
    |(generate_value c s d r).1.last_value - c.base_value| ≤ 2 * |c.variance| := by
  have hraw := raw_bound c s d r hd
  simp only [generate_value]
  have key : 7/10 * s.last_value + 3/10 * (c.base_value + r +
      (max (min (s.current_trend + d) 1) (-1)) * c.variance) - c.base_value
      = 7/10 * (s.last_value - c.base_value) + 3/10 * (c.base_value + r +
      (max (min (s.current_trend + d) 1) (-1)) * c.variance - c.base_value) := by
    ring
  rw [key]
  calc |7/10 * (s.last_value - c.base_value) + 3/10 * (c.base_value + r +
      (max (min (s.current_trend + d) 1) (-1)) * c.variance - c.base_value)|
      ≤ |7/10 * (s.last_value - c.base_value)| + |3/10 * (c.base_value + r +
        (max (min (s.current_trend + d) 1) (-1)) * c.variance - c.base_value)| := abs_add _ _
    _ = 7/10 * |s.last_value - c.base_value| + 3/10 * |c.base_value + r +
        (max (min (s.current_trend + d) 1) (-1)) * c.variance - c.base_value| := by
        rw [abs_mul, abs_mul, abs_of_pos (by norm_num : (0:ℚ) < 7/10),
          abs_of_pos (by norm_num : (0:ℚ) < 3/10)]
    _ ≤ 7/10 * (2 * |c.variance|) + 3/10 * (2 * |c.variance|) := by
        have h1 := mul_le_mul_of_nonneg_left hs (by norm_num : (0:ℚ) ≤ 7/10)
        have h2 := mul_le_mul_of_nonneg_left hraw (by norm_num : (0:ℚ) ≤ 3/10)
        linarith
    _ = 2 * |c.variance| := by ring

/-- All draw pairs of a run are within the ranges `random.uniform`
guarantees. -/
def ValidDraws (c : GenConfig) (draws : List (ℚ × ℚ)) : Prop :=
  ∀ p ∈ draws, ValidDraw c p.1 p.2

/-- The invariant `|last_value - base_value| ≤ 2 * |variance|` is preserved
by any run of valid steps. -/
theorem last_value_steps (c : GenConfig) (s : GenState) (draws : List (ℚ × ℚ))
    (hall : ValidDraws c draws)
    (hs : |s.last_value - c.base_value| ≤ 2 * |c.variance|) :
    |(genSteps c s draws).last_value - c.base_value| ≤ 2 * |c.variance| := by
  induction draws generalizing s with
  | nil => exact hs
  | cons p ps ih =>
      rw [genSteps_cons]
      refine ih _ ?_ (last_value_step c s p.1 p.2 (hall p (List.mem_cons_self p ps)) hs)
      intro q hq
      exact hall q (List.mem_cons_of_mem p hq)

/-- The returned value of `generate_value` is the rounded new `last_value`. -/
theorem generate_value_snd (c : GenConfig) (s : GenState) (d r : ℚ) :
    (generate_value c s d r).2 = round2 (generate_value c s d r).1.last_value := rfl

/-- C7: For every initial trend value in [-1, 1] and every
`trend_strength > 0`, after any number of calls to `generate_value` the
trend state `current_trend` remains within [-1, 1] (the clamp on line 39 of
group_5_data_generator.py enforces this at every step). -/
theorem c7_trend_invariant (c : GenConfig) (s : GenState) (draws : List (ℚ × ℚ))
    (_hts : 0 < c.trend_strength) (h0 : s.current_trend ∈ Set.Icc (-1 : ℚ) 1) :
    (genSteps c s draws).current_trend ∈ Set.Icc (-1 : ℚ) 1 := by
  induction draws generalizing s with
  | nil => exact h0
  | cons p ps ih =>
      rw [genSteps_cons]
      exact ih _ (trend_step_mem c s p.1 p.2)

theorem c7_witness :
    (genSteps ⟨20, 5, 1/10⟩ ⟨0, 20⟩ [(1/10, 2)]).current_trend ∈ Set.Icc (-1 : ℚ) 1 :=
  c7_trend_invariant ⟨20, 5, 1/10⟩ ⟨0, 20⟩ [(1/10, 2)] (by norm_num)
    (by rw [Set.mem_Icc]; norm_num)

/-- C10: with `variance ≥ 0`, starting from `last_value = base_value`, the
unrounded smoothed `last_value` stays within `base_value ± 2 * variance`
after any number of valid calls, and the rounded return value of the next
valid call lies within that interval widened by `0.005`. -/
theorem c10_output_bound (c : GenConfig) (draws : List (ℚ × ℚ)) (d r : ℚ)
    (hv : 0 ≤ c.variance) (hall : ValidDraws c draws) (hdr : ValidDraw c d r) :
    |(genSteps c (initState c) draws).last_value - c.base_value| ≤ 2 * c.variance ∧
    |(generate_value c (genSteps c (initState c) draws) d r).2 - c.base_value|
      ≤ 2 * c.variance + 1/200 := by
  have habs : |c.variance| = c.variance := abs_of_nonneg hv
  have h0 : |(initState c).last_value - c.base_value| ≤ 2 * |c.variance| := by
    simp only [initState, sub_self, abs_zero]
    positivity
  have hinv := last_value_steps c (initState c) draws hall h0
  rw [habs] at hinv
  refine ⟨hinv, ?_⟩
  have hstep := last_value_step c (genSteps c (initState c) draws) d r hdr
    (by rw [habs]; exact hinv)
  rw [habs] at hstep
  rw [generate_value_snd]
  calc |round2 (generate_value c (genSteps c (initState c) draws) d r).1.last_value
        - c.base_value|
      ≤ |round2 (generate_value c (genSteps c (initState c) draws) d r).1.last_value
        - (generate_value c (genSteps c (initState c) draws) d r).1.last_value|
        + |(generate_value c (genSteps c (initState c) draws) d r).1.last_value
        - c.base_value| := abs_sub_le _ _ _
    _ ≤ 1/200 + 2 * c.variance := add_le_add (abs_round2_sub _) hstep
    _ = 2 * c.variance + 1/200 := by ring

theorem c10_witness :
    |(genSteps ⟨20, 5, 1/10⟩ (initState ⟨20, 5, 1/10⟩) []).last_value - (20 : ℚ)|
      ≤ 2 * 5 ∧
    |(generate_value ⟨20, 5, 1/10⟩ (genSteps ⟨20, 5, 1/10⟩ (initState ⟨20, 5, 1/10⟩) [])
      0 0).2 - (20 : ℚ)| ≤ 2 * 5 + 1/200 :=
  c10_output_bound ⟨20, 5, 1/10⟩ [] 0 0 (by norm_num) (by intro p hp; simp at hp)
    (by constructor <;> norm_num)

/-- C3 counterexample: with configuration `base_value = 0`, `variance = 5`,
`trend_strength = 2` and the valid draw sequence `(2,5), (0,5)` from the
initial state, the next call with valid draws `(-2,-5)` changes the output
by `4.53 > 4.5 = 0.3 * (2*variance + variance)`, refuting the claimed
`0.9 * variance` per-step bound. -/
theorem c3_counterexample :
    ValidDraw ⟨0, 5, 2⟩ (-2) (-5) ∧
    |(generate_value ⟨0, 5, 2⟩ (genSteps ⟨0, 5, 2⟩ (initState ⟨0, 5, 2⟩) [(2, 5), (0, 5)])
      (-2) (-5)).2 - (genSteps ⟨0, 5, 2⟩ (initState ⟨0, 5, 2⟩) [(2, 5), (0, 5)]).last_value|
      > 3/10 * (2 * (5 : ℚ) + 5) := by
  constructor
  · constructor <;> norm_num
  · norm_num [genSteps, generate_value, initState, round2, List.foldl]
    rw [abs_of_pos (by norm_num : (0:ℚ) < 453/100)]
    norm_num

/-- C3 (amended): for every configuration with `variance ≥ 0` and every
state satisfying the reachable-state invariant
`|last_value - base_value| ≤ 2 * variance`, a call with valid draws changes
the output relative to the previous stored value by at most
`0.3 * (2*variance + 2*variance) = 1.2 * variance`, plus at most `0.005`
contributed by rounding the return value to two decimals. -/
theorem c3_step_change_bound (c : GenConfig) (s : GenState) (d r : ℚ)
    (hv : 0 ≤ c.variance) (hdr : ValidDraw c d r)
    (hs : |s.last_value - c.base_value| ≤ 2 * c.variance) :
    |(generate_value c s d r).2 - s.last_value|
      ≤ 3/10 * (2 * c.variance + 2 * c.variance) + 1/200 := by
  have habs : |c.variance| = c.variance := abs_of_nonneg hv
  have hraw := raw_bound c s d r hdr
  rw [habs] at hraw
  set raw := c.base_value + r + (max (min (s.current_trend + d) 1) (-1)) * c.variance with hrawdef
  have hsm : (generate_value c s d r).1.last_value = 7/10 * s.last_value + 3/10 * raw := rfl
  have hdiff : (generate_value c s d r).1.last_value - s.last_value
      = 3/10 * ((raw - c.base_value) - (s.last_value - c.base_value)) := by
    rw [hsm]; ring
  have hbound : |(generate_value c s d r).1.last_value - s.last_value|
      ≤ 3/10 * (2 * c.variance + 2 * c.variance) := by
    rw [hdiff, abs_mul, abs_of_pos (by norm_num : (0:ℚ) < 3/10)]
    have h1 : |(raw - c.base_value) - (s.last_value - c.base_value)|
        ≤ |raw - c.base_value| + |s.last_value - c.base_value| := abs_sub _ _
    have h2 : |raw - c.base_value| + |s.last_value - c.base_value|
        ≤ 2 * c.variance + 2 * c.variance := add_le_add hraw hs
    nlinarith [abs_nonneg ((raw - c.base_value) - (s.last_value - c.base_value))]
  rw [generate_value_snd]
  calc |round2 (generate_value c s d r).1.last_value - s.last_value|
      ≤ |round2 (generate_value c s d r).1.last_value
          - (generate_value c s d r).1.last_value|
        + |(generate_value c s d r).1.last_value - s.last_value| := abs_sub_le _ _ _
    _ ≤ 1/200 + 3/10 * (2 * c.variance + 2 * c.variance) :=
        add_le_add (abs_round2_sub _) hbound
    _ = 3/10 * (2 * c.variance + 2 * c.variance) + 1/200 := by ring

theorem c3_witness :
    |(generate_value ⟨20, 5, 1/10⟩ ⟨0, 20⟩ 0 0).2 - (20 : ℚ)|
      ≤ 3/10 * (2 * 5 + 2 * 5) + 1/200 :=
  c3_step_change_bound ⟨20, 5, 1/10⟩ ⟨0, 20⟩ 0 0 (by norm_num)
    (by constructor <;> norm_num) (by norm_num)

/-! ## Subscriber: StreamHealthMonitor (group_5_subscriber.py) -/

/-- State owned by the subscriber monitor: `data_points` (the RollingWindow
of `(timestamp, value)` pairs) and `last_packet_time`
(group_5_subscriber.py, lines 48-49; `None` initially). -/
structure MonitorState where
  data_points : List (ℚ × ℚ)
  last_packet_time : Option ℚ
deriving DecidableEq, Repr

/-- Outcome of deserializing an incoming MQTT payload in `on_message`:
`malformed` models `json.loads` raising `JSONDecodeError`; `invalid` models
the generic exception path (missing field, unparseable timestamp); `packet`
is a successfully parsed payload with its timestamp, value and packet id. -/
inductive Payload where
  | malformed
  | invalid
  | packet (timestamp : ℚ) (value : ℚ) (packet_id : ℤ)
deriving DecidableEq, Repr

/-- Observable classification `on_message` reports for one delivery. -/
inductive DeliveryEvent where
  | erroneous (value : ℚ)
  | normal (timestamp value : ℚ)
  | malformedError
  | processingError
deriving DecidableEq, Repr

/-- One run of `SubscriberGUI.on_message` (group_5_subscriber.py, lines
144-176) on a delivered payload, with the wall clock reading `now` that
`time.time()` would return.  On the erroneous branch (`abs(value) > 100`)
the handler returns before touching `data_points` or `last_packet_time`;
on the normal branch it appends, sets `last_packet_time`, and pops the
oldest entry when the window exceeds 50. -/
def on_message (s : MonitorState) (now : ℚ) (p : Payload) :
    MonitorState × DeliveryEvent :=
  match p with
  | .malformed => (s, .malformedError)
  | .invalid => (s, .processingError)
  | .packet ts v _ =>
      if |v| > 100 then (s, .erroneous v)
      else
        let pts := s.data_points ++ [(ts, v)]
        let pts2 := if pts.length > 50 then pts.tail else pts
        (⟨pts2, some now⟩, .normal ts v)

/-- Fold a list of `(now, payload)` deliveries through `on_message`. -/
def deliveries (s : MonitorState) (msgs : List (ℚ × Payload)) : MonitorState :=
  msgs.foldl (fun st m => (on_message st m.1 m.2).1) s

/-- One probe of the `monitor_missing_data` loop body (group_5_subscriber.py,
line 206): the warning fires when `self.last_packet_time` is truthy (not
`None` and, by Python float truthiness, not `0`) and
`time.time() - self.last_packet_time > self.missing_data_threshold`. -/
def gap_check (last_packet_time : Option ℚ) (now threshold : ℚ) : Bool :=
  match last_packet_time with
  | none => false
  | some t => decide (t ≠ 0) && decide (now - t > threshold)

/-- One full iteration of the `monitor_missing_data` loop on the monitor
state: the body only reads the state (lines 205-208 contain no assignment
to `last_packet_time` or `data_points`), then sleeps 1 second. -/
def gap_tick (s : MonitorState) (now threshold : ℚ) : MonitorState × Bool :=
  (s, gap_check s.last_packet_time now threshold)

/-- Value of `self.missing_data_threshold` (group_5_subscriber.py, line 50). -/
def missing_data_threshold : ℚ := 5

/-- C8: a payload that fails to deserialize makes `on_message` report the
malformed-payload error and leave the delivery unprocessed: the state
(RollingWindow and LastDeliveryTime) is exactly what it was before. -/
theorem c8_malformed_atomic (s : MonitorState) (now : ℚ) :
    on_message s now .malformed = (s, .malformedError) := rfl

/-- C1 counterexample: a delivery with value 150 (erroneous) leaves
`last_packet_time` unchanged — the code returns from the erroneous branch
before the `self.last_packet_time = time.time()` assignment, so the claim
that an erroneous delivery updates LastDeliveryTime is false.  Here the
previous delivery time is 7 and the clock reads 10, yet the state still
records 7 afterwards. -/
theorem c1_counterexample :
    on_message ⟨[], some 7⟩ 10 (.packet 0 150 1) = (⟨[], some 7⟩, .erroneous 150) ∧
    (on_message ⟨[], some 7⟩ 10 (.packet 0 150 1)).1.last_packet_time ≠ some 10 := by
  constructor
  · norm_num [on_message]
  · norm_num [on_message]

/-- C1 (amended): a delivery whose value `v` satisfies `|v| > 100` is
classified Erroneous: `on_message` reports the warning and leaves the
entire monitor state unchanged — nothing is inserted into RollingWindow
and, contrary to the original claim, `last_packet_time` is NOT updated
(the gap timer does not reset on erroneous deliveries). -/
theorem c1_erroneous_no_update (s : MonitorState) (now ts v : ℚ) (pid : ℤ)
    (hv : |v| > 100) :
    on_message s now (.packet ts v pid) = (s, .erroneous v) := by
  simp only [on_message, if_pos hv]

theorem c1_witness :
    on_message ⟨[(1, 2)], some 3⟩ 9 (.packet 4 150 1) = (⟨[(1, 2)], some 3⟩, .erroneous 150) :=
  c1_erroneous_no_update ⟨[(1, 2)], some 3⟩ 9 4 150 1 (by norm_num)

/-- The 51 Normal deliveries of the FIFO scenario: the `i`-th (1-based)
delivery arrives at wall-clock time `i` carrying timestamp, value and
packet id `i`; every value is within the accepted range. -/
def msgs51 : List (ℚ × Payload) :=
  [(1, .packet 1 1 1), (2, .packet 2 2 2), (3, .packet 3 3 3), (4, .packet 4 4 4), (5, .packet 5 5 5), (6, .packet 6 6 6), (7, .packet 7 7 7), (8, .packet 8 8 8), (9, .packet 9 9 9), (10, .packet 10 10 10), (11, .packet 11 11 11), (12, .packet 12 12 12), (13, .packet 13 13 13), (14, .packet 14 14 14), (15, .packet 15 15 15), (16, .packet 16 16 16), (17, .packet 17 17 17), (18, .packet 18 18 18), (19, .packet 19 19 19), (20, .packet 20 20 20), (21, .packet 21 21 21), (22, .packet 22 22 22), (23, .packet 23 23 23), (24, .packet 24 24 24), (25, .packet 25 25 25), (26, .packet 26 26 26), (27, .packet 27 27 27), (28, .packet 28 28 28), (29, .packet 29 29 29), (30, .packet 30 30 30), (31, .packet 31 31 31), (32, .packet 32 32 32), (33, .packet 33 33 33), (34, .packet 34 34 34), (35, .packet 35 35 35), (36, .packet 36 36 36), (37, .packet 37 37 37), (38, .packet 38 38 38), (39, .packet 39 39 39), (40, .packet 40 40 40), (41, .packet 41 41 41), (42, .packet 42 42 42), (43, .packet 43 43 43), (44, .packet 44 44 44), (45, .packet 45 45 45), (46, .packet 46 46 46), (47, .packet 47 47 47), (48, .packet 48 48 48), (49, .packet 49 49 49), (50, .packet 50 50 50), (51, .packet 51 51 51)]

/-- The expected RollingWindow after the 51 deliveries of `msgs51`: entries 2..51. -/
def window50 : List (ℚ × ℚ) :=
  [(2, 2), (3, 3), (4, 4), (5, 5), (6, 6), (7, 7), (8, 8), (9, 9), (10, 10), (11, 11), (12, 12), (13, 13), (14, 14), (15, 15), (16, 16), (17, 17), (18, 18), (19, 19), (20, 20), (21, 21), (22, 22), (23, 23), (24, 24), (25, 25), (26, 26), (27, 27), (28, 28), (29, 29), (30, 30), (31, 31), (32, 32), (33, 33), (34, 34), (35, 35), (36, 36), (37, 37), (38, 38), (39, 39), (40, 40), (41, 41), (42, 42), (43, 43), (44, 44), (45, 45), (46, 46), (47, 47), (48, 48), (49, 49), (50, 50), (51, 51)]

/-- The window update of the Normal branch of `on_message` keeps the length
at most 50 whenever it was at most 50 before. -/
theorem window_step_len (l : List (ℚ × ℚ)) (e : ℚ × ℚ) (h : l.length ≤ 50) :
    (if (l ++ [e]).length > 50 then (l ++ [e]).tail else l ++ [e]).length ≤ 50 := by
  by_cases hcond : (l ++ [e]).length > 50
  · rw [if_pos hcond, List.length_tail, List.length_append, List.length_singleton]
    omega
  · rw [if_neg hcond]
    exact Nat.le_of_not_lt hcond

set_option maxRecDepth 40000 in
/-- C5: after every completed delivery handling the RollingWindow holds at
most 50 entries, and eviction is FIFO: inserting the 51 Normal deliveries
`msgs51` (values 1..51) into an empty monitor leaves exactly the
entries 2..51 in insertion order, so the first inserted entry is absent and
the 51st is present. -/
theorem c5_window_bound :
    (∀ (s : MonitorState) (now : ℚ) (p : Payload),
        s.data_points.length ≤ 50 → (on_message s now p).1.data_points.length ≤ 50) ∧
    (deliveries ⟨[], none⟩ msgs51).data_points = window50 ∧
    ((1 : ℚ), (1 : ℚ)) ∉ (deliveries ⟨[], none⟩ msgs51).data_points ∧
    ((51 : ℚ), (51 : ℚ)) ∈ (deliveries ⟨[], none⟩ msgs51).data_points := by
  refine ⟨?_, ?_, ?_, ?_⟩
  · intro s now p hlen
    match p with
    | .malformed => exact hlen
    | .invalid => exact hlen
    | .packet ts v pid =>
        by_cases hv : |v| > 100
        · simp only [on_message, if_pos hv]
          exact hlen
        · simp only [on_message, if_neg hv]
          exact window_step_len s.data_points (ts, v) hlen
  · decide
  · decide
  · decide

theorem c5_witness :
    (on_message ⟨[], none⟩ 0 Payload.malformed).1.data_points.length ≤ 50 :=
  c5_window_bound.1 ⟨[], none⟩ 0 Payload.malformed (by decide)

/-- C6: the gap check fires exactly when `last_packet_time` is set (to a
positive wall-clock instant) and `now - last_packet_time` exceeds the
threshold; it never fires before the first delivery; a gap tick never
modifies the monitor state; and with the 1-second tick period there is a
tick within 6 seconds of the last delivery at which the check (threshold 5)
fires — so a 6-second silence produces at least one missing-data warning. -/
theorem c6_gap_detection (L now thr : ℚ) (hL : 0 < L) :
    (gap_check (some L) now thr = true ↔ now - L > thr) ∧
    (∀ now2 thr2 : ℚ, gap_check none now2 thr2 = false) ∧
    (∀ (s : MonitorState) (now3 thr3 : ℚ), (gap_tick s now3 thr3).1 = s) ∧
    (∀ c : ℚ, c ≤ L → ∃ n : ℕ, (c + (n : ℚ)) ≤ L + 6 ∧
        gap_check (some L) (c + (n : ℚ)) missing_data_threshold = true) := by
  have hL0 : L ≠ 0 := hL.ne'
  refine ⟨?_, fun _ _ => rfl, fun _ _ _ => rfl, ?_⟩
  · simp [gap_check, hL0]
  · intro c hc
    have hx : (0 : ℚ) ≤ L + 5 - c := by linarith
    have hfl : (0 : ℤ) ≤ ⌊L + 5 - c⌋ := Int.floor_nonneg.mpr hx
    have hnn : (0 : ℤ) ≤ ⌊L + 5 - c⌋ + 1 := by omega
    have htn : ((⌊L + 5 - c⌋ + 1).toNat : ℤ) = ⌊L + 5 - c⌋ + 1 := Int.toNat_of_nonneg hnn
    have hcast : (((⌊L + 5 - c⌋ + 1).toNat : ℕ) : ℚ) = ((⌊L + 5 - c⌋ : ℤ) : ℚ) + 1 := by
      exact_mod_cast congrArg (fun z : ℤ => (z : ℚ)) htn
    refine ⟨(⌊L + 5 - c⌋ + 1).toNat, ?_, ?_⟩
    · rw [hcast]
      have := Int.floor_le (L + 5 - c)
      linarith
    · have hlt : L + 5 - c < ((⌊L + 5 - c⌋ : ℤ) : ℚ) + 1 := Int.lt_floor_add_one _
      simp only [gap_check, missing_data_threshold, hcast, Bool.and_eq_true,
        decide_eq_true_eq]
      constructor
      · exact hL0
      · linarith

theorem c6_witness :
    gap_check (some 1) 7 5 = true ∧
    gap_check none 0 5 = false ∧
    (gap_tick ⟨[], some 1⟩ 9 5).1 = (⟨[], some 1⟩ : MonitorState) :=
  ⟨(c6_gap_detection 1 7 5 (by norm_num)).1.mpr (by norm_num),
   (c6_gap_detection 1 7 5 (by norm_num)).2.1 0 5,
   (c6_gap_detection 1 7 5 (by norm_num)).2.2.1 ⟨[], some 1⟩ 9 5⟩

/-! ## Publisher: publish loop and transmission simulation
(group_5_publisher.py) -/

/-- The drop/corrupt/forward logic of one `publish_loop` tick
(group_5_publisher.py, lines 118-130).  `d1` is the first `random.random()`
draw (drop check, line 121: proceed only when `d1 > 0.01`), `d2` the second
draw (corruption check, line 125: corrupt when `d2 < 0.01`) and `mult` the
`random.uniform(10, 100)` corruption multiplier.  `d` and `r` are the
generator draws of the tick.  When the tick is dropped the generator is not
invoked at all and nothing is published. -/
def publish_iter (c : GenConfig) (s : GenState) (d r d1 d2 mult : ℚ) :
    GenState × Option ℚ :=
  if d1 > 1/100 then
    let g := generate_value c s d r
    (g.1, some (if d2 < 1/100 then g.2 * mult else g.2))
  else (s, none)

/-- Outcome of `start_publishing` (group_5_publisher.py, lines 95-107).
The source method branches only on `is_running`; it has no failure outcome
for bad parameters because it performs no parameter validation. -/
inductive StartOutcome where
  | started
  | alreadyRunning
deriving DecidableEq, Repr

/-- `start_publishing` (group_5_publisher.py, lines 95-107): when idle, set
`is_running` and start the publishing thread.  None of `base_value`,
`variance`, `trend_strength`, `interval_ms` or `missing_data_threshold` is
read or validated here (the interval entry is only read inside
`publish_loop`).  Returns the new `is_running` flag and the outcome. -/
def start_publishing (is_running : Bool) : Bool × StartOutcome :=
  if is_running then (true, .alreadyRunning) else (true, .started)

/-- Status of one `publish_loop` iteration: either the try body ran to the
end of its sleep, or it raised and the `except` clause reported the error.
In both cases the `while self.is_running` loop proceeds to its next
iteration — the body never writes `is_running`. -/
inductive LoopStatus where
  | sleptOk
  | errorReported
deriving DecidableEq, Repr

/-- One iteration of `publish_loop` (group_5_publisher.py, lines 116-137).
`interval_text` models `float(self.interval.get())`: `none` when the entry
text does not parse as a float (the `float` call raises `ValueError`), and
`time.sleep` raises when its argument `interval/1000` is negative.  Either
exception is caught by the `except` clause, which reports it and lets the
loop continue. -/
def publish_loop_iter (interval_text : Option ℚ) (c : GenConfig) (s : GenState)
    (d r d1 d2 mult : ℚ) : GenState × Option ℚ × LoopStatus :=
  let g := publish_iter c s d r d1 d2 mult
  match interval_text with
  | none => (g.1, g.2, .errorReported)
  | some iv =>
      if iv / 1000 < 0 then (g.1, g.2, .errorReported) else (g.1, g.2, .sleptOk)

/-- C4: the drop check is evaluated first: a first draw `≤ 0.01` drops the
tick (nothing generated, corrupted or published, whatever the second draw
and multiplier are); a surviving tick is corrupted (value multiplied by the
uniform draw from [10, 100]) exactly when the independent second draw is
`< 0.01`, and forwarded unchanged otherwise. -/
theorem c4_transmission_policy (c : GenConfig) (s : GenState) (d r d1 d2 mult : ℚ) :
    (d1 ≤ 1/100 → publish_iter c s d r d1 d2 mult = (s, none)) ∧
    (d1 > 1/100 → d2 < 1/100 → publish_iter c s d r d1 d2 mult
      = ((generate_value c s d r).1, some ((generate_value c s d r).2 * mult))) ∧
    (d1 > 1/100 → ¬(d2 < 1/100) → publish_iter c s d r d1 d2 mult
      = ((generate_value c s d r).1, some (generate_value c s d r).2)) := by
  refine ⟨?_, ?_, ?_⟩
  · intro h1
    simp only [publish_iter, if_neg (not_lt.mpr h1)]
  · intro h1 h2
    simp only [publish_iter, if_pos h1, if_pos h2]
  · intro h1 h2
    simp only [publish_iter, if_pos h1, if_neg h2]

theorem c4_witness :
    publish_iter ⟨20, 5, 1/10⟩ ⟨0, 20⟩ 0 0 (1/200) (1/2) 3 = (⟨0, 20⟩, none) :=
  (c4_transmission_policy ⟨20, 5, 1/10⟩ ⟨0, 20⟩ 0 0 (1/200) (1/2) 3).1 (by norm_num)

/-- C2 counterexample: the configuration whose interval entry does not
parse as a number (modelled by `interval_text = none`) is invalid, yet
`start_publishing` succeeds on it — the method has no validation and no
failure outcome at all — and the failure instead surfaces inside an
already-running `publish_loop` iteration, where it is caught and reported.
This refutes the claim that invalid configurations fail at
`start()`/construction and never mid-loop. -/
theorem c2_counterexample :
    start_publishing false = (true, .started) ∧
    (publish_loop_iter none ⟨20, 5, 1/10⟩ (initState ⟨20, 5, 1/10⟩)
      0 0 1 1 1).2.2 = .errorReported := ⟨rfl, rfl⟩

/-- C2 (amended): `start_publishing` validates nothing: it reads only
`is_running`, always transitions to running when idle, and cannot fail on
any parameter value.  An invalid interval (text that does not parse, or a
negative value making `time.sleep` raise) instead raises inside the running
`publish_loop` iteration, where the exception handler reports it and the
loop — whose body never writes `is_running` — continues. -/
theorem c2_no_validation (interval_text : Option ℚ) (c : GenConfig)
    (s : GenState) (d r d1 d2 mult : ℚ) :
    ((start_publishing false).2 = .started ∧ ∀ b : Bool, (start_publishing b).1 = true) ∧
    (interval_text = none →
      (publish_loop_iter interval_text c s d r d1 d2 mult).2.2 = .errorReported) ∧
    (∀ iv : ℚ, interval_text = some iv → iv / 1000 < 0 →
      (publish_loop_iter interval_text c s d r d1 d2 mult).2.2 = .errorReported) := by
  refine ⟨⟨rfl, ?_⟩, ?_, ?_⟩
  · intro b
    cases b <;> rfl
  · intro h
    subst h
    rfl
  · intro iv h hneg
    subst h
    simp only [publish_loop_iter, if_pos hneg]

theorem c2_witness :
    (start_publishing false).2 = StartOutcome.started ∧
    (start_publishing true).1 = true ∧
    (publish_loop_iter none ⟨20, 5, 1/10⟩ ⟨0, 20⟩ 0 0 1 1 1).2.2
      = LoopStatus.errorReported ∧
    (publish_loop_iter (some (-5)) ⟨20, 5, 1/10⟩ ⟨0, 20⟩ 0 0 1 1 1).2.2
      = LoopStatus.errorReported :=
  ⟨(c2_no_validation none ⟨20, 5, 1/10⟩ ⟨0, 20⟩ 0 0 1 1 1).1.1,
   (c2_no_validation none ⟨20, 5, 1/10⟩ ⟨0, 20⟩ 0 0 1 1 1).1.2 true,
   (c2_no_validation none ⟨20, 5, 1/10⟩ ⟨0, 20⟩ 0 0 1 1 1).2.1 rfl,
   (c2_no_validation (some (-5)) ⟨20, 5, 1/10⟩ ⟨0, 20⟩ 0 0 1 1 1).2.2 (-5) rfl
     (by norm_num)⟩

/-- The five random draws consumed by one publish cycle: the two generator
draws `d` (trend delta) and `r` (random component), the drop draw `d1`, the
corruption draw `d2` and the corruption multiplier `mult`. -/
structure Tick where
  d : ℚ
  r : ℚ
  d1 : ℚ
  d2 : ℚ
  mult : ℚ
deriving DecidableEq, Repr

/-- Run `publish_loop` over a list of ticks, collecting the values that
reach the channel (dropped ticks deliver nothing). -/
def publishRun (c : GenConfig) (s : GenState) : List Tick → GenState × List ℚ
  | [] => (s, [])
  | t :: ts =>
      let g := publish_iter c s t.d t.r t.d1 t.d2 t.mult
      let rest := publishRun c g.1 ts
      (rest.1, match g.2 with | none => rest.2 | some v => v :: rest.2)

/-- Rounding the constant 20 to two decimals returns 20. -/
theorem round2_twenty : round2 20 = 20 := by
  unfold round2
  have h : (20 : ℚ) * 100 = ((2000 : ℤ) : ℚ) := by norm_num
  rw [h, round_intCast]
  norm_num

/-- With `base_value = 20`, `variance = 0`, `trend_strength = 0` the only
draw the uniform calls can produce is 0, and a step from `last_value = 20`
stays at 20 and returns exactly 20. -/
theorem gen20 (s : GenState) (d r : ℚ) (hr : r = 0) (hl : s.last_value = 20) :
    (generate_value ⟨20, 0, 0⟩ s d r).1.last_value = 20 ∧
    (generate_value ⟨20, 0, 0⟩ s d r).2 = 20 := by
  subst hr
  have hsm : (generate_value ⟨20, 0, 0⟩ s d 0).1.last_value = 20 := by
    simp only [generate_value]
    rw [hl]
    ring
  refine ⟨hsm, ?_⟩
  rw [generate_value_snd, hsm, round2_twenty]

/-- C9: with configuration `base_value = 20`, `variance = 0`,
`trend_strength = 0`, draws within the uniform ranges (hence 0) and the
drop/corruption draws forced to never drop (`d1 > 0.01`) or corrupt
(`d2 ≥ 0.01`), every value delivered over any number of publish cycles
(in particular the first 10) equals 20 exactly. -/
theorem c9_constant_stream (ticks : List Tick)
    (h : ∀ t ∈ ticks, ValidDraw ⟨20, 0, 0⟩ t.d t.r ∧ t.d1 > 1/100 ∧ ¬(t.d2 < 1/100)) :
    ((publishRun ⟨20, 0, 0⟩ (initState ⟨20, 0, 0⟩) ticks).2).Forall (fun v => v = 20) := by
  have key : ∀ (ts : List Tick) (s : GenState), s.last_value = 20 →
      (∀ t ∈ ts, ValidDraw ⟨20, 0, 0⟩ t.d t.r ∧ t.d1 > 1/100 ∧ ¬(t.d2 < 1/100)) →
      ((publishRun ⟨20, 0, 0⟩ s ts).2).Forall (fun v => v = 20) := by
    intro ts
    induction ts with
    | nil => intro s _ _; exact trivial
    | cons t ts ih =>
        intro s hs hall
        obtain ⟨hvd, hd1, hd2⟩ := hall t (List.mem_cons_self t ts)
        have hr : t.r = 0 := by
          have := hvd.2
          simp only [abs_zero] at this
          exact abs_nonpos_iff.mp (by simpa using this)
        have hg := gen20 s t.d t.r hr hs
        have hrest := ih (generate_value ⟨20, 0, 0⟩ s t.d t.r).1 hg.1
          (fun q hq => hall q (List.mem_cons_of_mem t hq))
        simp only [publishRun, publish_iter, if_pos hd1, if_neg hd2]
        simp only [publishRun, publish_iter, if_pos hd1, if_neg hd2] at hrest
        rw [List.forall_cons]
        exact ⟨hg.2, hrest⟩
  exact key ticks (initState ⟨20, 0, 0⟩) rfl h

theorem c9_witness :
    ((publishRun ⟨20, 0, 0⟩ (initState ⟨20, 0, 0⟩) [⟨0, 0, 1, 1, 1⟩]).2).Forall
      (fun v => v = 20) :=
  c9_constant_stream [⟨0, 0, 1, 1, 1⟩] (by
    intro t ht
    simp only [List.mem_singleton] at ht
    subst ht
    refine ⟨⟨?_, ?_⟩, by norm_num, by norm_num⟩ <;> simp)

end SoundMonitoring
